import Mathlib

/-!
Verification development for the synology-download-manager background logic.

The TypeScript sources are shallowly embedded below:
  * `src/src/taskPoller.ts` (two modules: the `TaskPoller` class and the
    multi-URL task-submission module `addDownloadTasksAndPoll`),
  * `src/unnamed/part_000` (the background script plus two versions of the
    `actions` module: the older `pollTasks`/`addDownloadTask` and the newer
    `pollTasks`/`addDownloadTaskAndPoll` with `wrapInNoPermissionsRetry`).

Promise chains are embedded as pure functions over explicitly-passed
outcomes of the external calls (HTTP requests, the Synology API client,
timers); `browser.storage.local.set` calls are reified as write records
returned by the functions.
-/

namespace SDM

/-! ## JavaScript string primitives

The source manipulates JS strings with `startsWith`, `endsWith`, `slice`,
`indexOf` and `lastIndexOf`.  We model them over `String.data` lists. -/

/-- Model of JS `s.startsWith(t)`. -/
def jsStartsWith (s t : String) : Bool := t.data.isPrefixOf s.data

/-- Model of JS `s.endsWith(t)`. -/
def jsEndsWith (s t : String) : Bool := t.data.isSuffixOf s.data

/-- Model of JS `s.toLowerCase()`, as character-wise lowercasing (the
header values compared here are ASCII media types). -/
def jsToLower (s : String) : String := ⟨s.data.map Char.toLower⟩

/-- Occurrence of `needle` as a contiguous sublist, scanning positions left
to right. -/
def listContains (needle : List Char) : List Char → Bool
  | [] => needle.isEmpty
  | c :: rest => needle.isPrefixOf (c :: rest) || listContains needle rest

/-- Model of JS `needle` occurring in `s`, i.e. `s.indexOf(needle) !== -1`. -/
def jsContains (s needle : String) : Bool := listContains needle.data s.data

/-- Model of `url.indexOf('?') !== -1 ? url.slice(0, url.indexOf('?')) : url`
(the characters strictly before the first `?`, or the whole string when
there is none). -/
def urlWithoutQueryOf (url : String) : String :=
  ⟨url.data.takeWhile (fun c => c ≠ '?')⟩

/-- Model of `s.slice(s.lastIndexOf('/') + 1)` (the characters strictly after
the last `/`, or the whole string when there is none). -/
def afterLastSlash (s : String) : String :=
  ⟨(s.data.reverse.takeWhile (fun c => c ≠ '/')).reverse⟩

theorem jsEndsWith_append (s t : String) : jsEndsWith (s ++ t) t = true := by
  obtain ⟨l⟩ := s
  obtain ⟨m⟩ := t
  show (List.isSuffixOf m (l ++ m)) = true
  exact List.isSuffixOf_iff_suffix.mpr (List.suffix_append l m)

theorem append_ne_empty_left (s t : String) (h : s ≠ "") : s ++ t ≠ "" := by
  obtain ⟨l⟩ := s
  obtain ⟨m⟩ := t
  show String.mk (l ++ m) ≠ String.mk []
  intro hc
  apply h
  cases l with
  | nil => rfl
  | cons c cs => simpa using congrArg String.data hc

/-! ## Protocol lists (taskPoller.ts, lines 127-157)

`DOWNLOADABLE_PROTOCOLS` and `startsWithAnyProtocol` as defined in the
multi-URL submission module of `src/src/taskPoller.ts`.  The newer actions
module in `src/unnamed/part_000` imports the same values under the name
`ALL_DOWNLOADABLE_PROTOCOLS` from a `protocols` module that is not under
`src/`; the list and the check below follow the in-repo definitions, which
agree with the spec's enumeration. -/

def AUTO_DOWNLOAD_TORRENT_FILE_PROTOCOLS : List String := ["http", "https"]

def DOWNLOADABLE_PROTOCOLS : List String :=
  ["http", "https", "ftp", "ftps", "magnet", "thunder", "flashget", "qqdl"]

/-- Alias used by the newer actions module in `src/unnamed/part_000`. -/
def ALL_DOWNLOADABLE_PROTOCOLS : List String := DOWNLOADABLE_PROTOCOLS

/-- Model of `protocols.some(protocol => url.startsWith(protocol + ':'))`. -/
def startsWithAnyProtocol (url : String) (protocols : List String) : Bool :=
  protocols.any (fun protocol => jsStartsWith url (protocol ++ ":"))

/-! ## Metadata file types (taskPoller.ts lines 143-153, part_000 lines 377-387) -/

structure MetadataFileType where
  mediaType : String
  extension : String
deriving DecidableEq

def METADATA_FILE_TYPES : List MetadataFileType :=
  [⟨"application/x-bittorrent", ".torrent"⟩, ⟨"application/x-nzb", ".nzb"⟩]

def ARBITRARY_FILE_FETCH_SIZE_CUTOFF : Int := 1024 * 1024 * 5

/-! ## The filename regex

`FILENAME_PROPERTY_REGEX = /filename=("([^"]+)"|([^"][^ ]+))/` executed with
first-match (leftmost) semantics.  `tryFilenameBranches` models the
alternation attempted at one candidate position (the characters following a
literal `filename=`): the first branch is a quoted non-empty run of
non-quote characters, the second a non-quote character followed by a
non-empty greedy run of non-space characters.  `filenameCaptureAux` scans
positions left to right, exactly like the regex engine. -/

def tryFilenameBranches : List Char → Option (List Char)
  | [] => none
  | c :: rest =>
    if c = '"' then
      let run := rest.takeWhile (fun x => x ≠ '"')
      if run.isEmpty then none
      else if (rest.drop run.length).head? = some '"' then some run
      else none
    else
      let run := rest.takeWhile (fun x => x ≠ ' ')
      if run.isEmpty then none else some (c :: run)

def filenameCaptureAux : List Char → Option (List Char)
  | [] => none
  | c :: rest =>
    if ("filename=".data).isPrefixOf (c :: rest) then
      match tryFilenameBranches ((c :: rest).drop 9) with
      | some cap => some cap
      | none => filenameCaptureAux rest
    else filenameCaptureAux rest

/-- The captured filename group (`regexMatch[2] || regexMatch[3]`) of
`FILENAME_PROPERTY_REGEX.exec(contentDisposition)`, or `none` when the regex
does not match. -/
def filenameCapture (s : String) : Option String :=
  (filenameCaptureAux s.data).map (fun l => ⟨l⟩)

/-! ## guessFileName (taskPoller.ts lines 161-176)

The identical function appears as `guessTorrentFileName` in the newer
actions module of `src/unnamed/part_000` (lines 391-406).  The second
argument models `headers['content-disposition']` of the `headers` record
passed to the source function (`none` when the header is absent). -/

/-- The `maybeFilename` selection: the regex capture when the
`content-disposition` header is truthy and contains `filename=`, otherwise
the final path segment of the URL.  (An empty header string is falsy in
JS.) -/
def chooseRawFileName (urlWithoutQuery : String) (contentDisposition : Option String) :
    Option String :=
  match contentDisposition with
  | none => some (afterLastSlash urlWithoutQuery)
  | some cd =>
    if cd = "" then some (afterLastSlash urlWithoutQuery)
    else if jsContains cd "filename=" then filenameCapture cd
    else some (afterLastSlash urlWithoutQuery)

/-- The `maybeFilename == null || maybeFilename.length === 0` fallback. -/
def fallbackDownload : Option String → String
  | none => "download"
  | some f => if f = "" then "download" else f

def guessFileName (urlWithoutQuery : String) (contentDisposition : Option String)
    (metadataFileType : MetadataFileType) : String :=
  let base := fallbackDownload (chooseRawFileName urlWithoutQuery contentDisposition)
  if jsEndsWith base metadataFileType.extension then base
  else base ++ metadataFileType.extension

/-- Name used by the newer actions module of `src/unnamed/part_000`
(lines 391-406); its body is character-for-character the same as
`guessFileName` in `src/src/taskPoller.ts`. -/
def guessTorrentFileName (urlWithoutQuery : String) (contentDisposition : Option String)
    (metadataFileType : MetadataFileType) : String :=
  guessFileName urlWithoutQuery contentDisposition metadataFileType

/-! ## Synology API result types

The external `synology-typescript-api` client settles its promises with
`ConnectionFailure | SynologyResponse<T>`: connection failures are values,
not rejections.  `SynologyResponse<T>` is `{ success: true, data: T }` or
`{ success: false, error: { code: number } }`.  The code only inspects
`type`, `failureMessage`, `success`, `data` and `error.code`, which is all
this model carries. -/

structure ConnFailure where
  type : String
  failureMessage : String
deriving DecidableEq

inductive SynologyResponse (α : Type) where
  | success (data : α)
  | failure (errorCode : Nat)
deriving DecidableEq

inductive ApiCallResult (α : Type) where
  | connectionFailure (cf : ConnFailure)
  | response (r : SynologyResponse α)
deriving DecidableEq

/-- Model of `isConnectionFailure(result)`. -/
def isConnectionFailure {α : Type} : ApiCallResult α → Bool
  | .connectionFailure _ => true
  | .response _ => false

/-- Model of `result.success` (read on a non-connection-failure result). -/
def resultSuccess {α : Type} : ApiCallResult α → Bool
  | .response (.success _) => true
  | _ => false

/-- Model of the `result.error.code` access performed on an unsuccessful
response. -/
def resultErrorCode {α : Type} : ApiCallResult α → Option Nat
  | .response (.failure code) => some code
  | _ => none

/-- A download task as used by this code: only `id`, `title` and `status`
are ever read. -/
structure Task where
  id : String
  title : String
  status : String
deriving DecidableEq

/-! ## Rejected-error shape (utils knowledge in the catch handlers)

A poll's promise chain can reject with an arbitrary JS value.  The catch
handlers read `error.response.status` and `error.message` after a
truthiness guard on `error` (and on `error.response`); `none` at the outer
level models a falsy rejection value. -/

structure JsResponseInfo where
  status : Int
deriving DecidableEq

structure JsErrorShape where
  response : Option JsResponseInfo
  message : Option String
deriving DecidableEq

/-- The failure-message classification shared verbatim by the catch handler
of `TaskPoller.tryPoll` (src/src/taskPoller.ts lines 63-74) and of the older
`pollTasks` (src/unnamed/part_000 lines 181-191):

    if (error && error.response && error.response.status === 400) ...
    else if (error && error.message === 'Network Error') ...
    else ... 'Unknown error.' -/
def classifyPollError : Option JsErrorShape → String
  | some e =>
    if (match e.response with | some r => r.status == 400 | none => false)
    then "Connection failure (likely wrong protocol)."
    else if e.message == some "Network Error"
    then "Connection failure (likely incorrect hostname/port or no internet connection)."
    else "Unknown error."
  | none => "Unknown error."

/-! ## Cached task state (the `CachedTasks` record)

`browser.storage.local.set` is called with `Partial<CachedTasks>` objects;
a write record mirrors that partiality field by field.  The
`taskFetchFailureReason` field of `CachedTasks` is
`'missing-config' | { failureMessage: string } | null`; an outer `some`
in the write record means the field is present in the write, and the inner
`Option` is the `null`-ability of the stored value. -/

inductive TaskFetchFailureReason where
  | missingConfig
  | withMessage (failureMessage : String)
deriving DecidableEq

structure CachedTasksWrite where
  tasks : Option (List Task)
  taskFetchFailureReason : Option (Option TaskFetchFailureReason)
  tasksLastCompletedFetchTimestamp : Option Nat
  tasksLastInitiatedFetchTimestamp : Option Nat
deriving DecidableEq

def emptyWrite : CachedTasksWrite := ⟨none, none, none, none⟩

def initiatedWrite (now : Nat) : CachedTasksWrite :=
  { emptyWrite with tasksLastInitiatedFetchTimestamp := some now }

namespace Actions

/-! ### wrapInNoPermissionsRetry (src/unnamed/part_000 lines 283-300)

The wrapped function is modelled by its invocation behaviour
`fn : Nat → ApiCallResult α` giving the settled result of its n-th call
(the session state the server sees can differ between the first and the
second call).  The outcome records the returned result, how many times the
wrapped function was invoked, and whether `api.Auth.Logout()` was called. -/

def NO_PERMISSIONS_ERROR_CODE : Nat := 105

structure RetryOutcome (α : Type) where
  result : ApiCallResult α
  callCount : Nat
  loggedOut : Bool
deriving DecidableEq

def wrapInNoPermissionsRetry {α : Type} (fn : Nat → ApiCallResult α) : RetryOutcome α :=
  let result := fn 0
  if !(isConnectionFailure result) && !(resultSuccess result)
      && resultErrorCode result == some NO_PERMISSIONS_ERROR_CODE
  then ⟨fn 1, 2, true⟩
  else ⟨result, 1, false⟩

/-- The Task.List request issued by `doTaskPoll` (lines 313-323). -/
structure TaskListRequest where
  offset : Int
  limit : Int
  additional : List String
  timeoutMs : Nat
deriving DecidableEq

/-- The Task.Create request issued by the single-URL submission flow
(either one form file or a `uri` array, plus an optional destination). -/
structure FormFile where
  mediaType : String
  filename : String
deriving DecidableEq

structure CreateRequestSingle where
  file : Option FormFile
  uri : Option (List String)
  destination : Option String
deriving DecidableEq

/-- The remote API client surface used by the wrapped calls, with each
method modelled by its per-invocation settled results. -/
structure ApiClientModel where
  taskList : TaskListRequest → Nat → ApiCallResult (List Task)
  taskCreate : CreateRequestSingle → Nat → ApiCallResult Unit

def taskPollRequest : TaskListRequest := ⟨0, -1, ["transfer", "detail"], 20000⟩

/-- `doTaskPoll = wrapInNoPermissionsRetry(api => api.DownloadStation.Task.List({...}))`. -/
def doTaskPoll (api : ApiClientModel) : RetryOutcome (List Task) :=
  wrapInNoPermissionsRetry (api.taskList taskPollRequest)

/-- `doCreateTask = wrapInNoPermissionsRetry((api, options) => api.DownloadStation.Task.Create(options))`. -/
def doCreateTask (api : ApiClientModel) (options : CreateRequestSingle) : RetryOutcome Unit :=
  wrapInNoPermissionsRetry (api.taskCreate options)

/-! ### pollTasks, newer version (src/unnamed/part_000 lines 325-375)

`emcf` models `errorMessageFromConnectionFailure` and `emc` models
`errorMessageFromCode` (both imported from an `errors` module that is not
under `src/`; per the spec they produce human-readable failure messages, so
the theorems quantify over them).  `nowInit`/`nowDone` are the two
`Date.now()` readings.  The `outcome` is the settled result of
`Promise.all([storage.set(init), doTaskPoll(api)])`: `Except.error` is the
rejection case handled by the final `.catch`, which only logs and performs
no storage write. -/

def setCachedTasksResponse (now : Nat) (w : CachedTasksWrite) : CachedTasksWrite :=
  { w with tasksLastCompletedFetchTimestamp := some now }

def pollTasksResponseWrite (emcf : ConnFailure → String) (emc : Nat → String)
    (now : Nat) : ApiCallResult (List Task) → CachedTasksWrite
  | .connectionFailure cf =>
    if cf.type == "missing-config" then
      setCachedTasksResponse now
        { emptyWrite with taskFetchFailureReason := some (some .missingConfig) }
    else
      setCachedTasksResponse now
        { emptyWrite with taskFetchFailureReason := some (some (.withMessage (emcf cf))) }
  | .response (.success tasks) =>
    setCachedTasksResponse now
      { emptyWrite with tasks := some tasks, taskFetchFailureReason := some none }
  | .response (.failure code) =>
    setCachedTasksResponse now
      { emptyWrite with taskFetchFailureReason := some (some (.withMessage (emc code))) }

/-- The sequence of `browser.storage.local.set` writes one invocation of the
newer `pollTasks` performs, in order. -/
def pollTasks (emcf : ConnFailure → String) (emc : Nat → String)
    (nowInit nowDone : Nat)
    (outcome : Except (Option JsErrorShape) (ApiCallResult (List Task))) :
    List CachedTasksWrite :=
  match outcome with
  | .ok response => [initiatedWrite nowInit, pollTasksResponseWrite emcf emc nowDone response]
  | .error _ => [initiatedWrite nowInit]

end Actions

namespace ActionsOld

/-! ### pollTasks, older version (src/unnamed/part_000 lines 144-200)

Same shape as the newer version, except: the non-missing-config connection
failure caches `response.failureMessage` directly, and the `.catch` handler
classifies the rejection (via the shared three-case logic) and still writes
a completed-fetch timestamp. -/

def pollTasks (emc : Nat → String) (nowInit nowDone : Nat)
    (outcome : Except (Option JsErrorShape) (ApiCallResult (List Task))) :
    List CachedTasksWrite :=
  match outcome with
  | .ok (.connectionFailure cf) =>
    if cf.type == "missing-config" then
      [initiatedWrite nowInit,
       ⟨none, some (some .missingConfig), some nowDone, none⟩]
    else
      [initiatedWrite nowInit,
       ⟨none, some (some (.withMessage cf.failureMessage)), some nowDone, none⟩]
  | .ok (.response (.success tasks)) =>
    [initiatedWrite nowInit,
     ⟨some tasks, some none, some nowDone, none⟩]
  | .ok (.response (.failure code)) =>
    [initiatedWrite nowInit,
     ⟨none, some (some (.withMessage (emc code))), some nowDone, none⟩]
  | .error e =>
    [initiatedWrite nowInit,
     ⟨none, some (some (.withMessage (classifyPollError e))), some nowDone, none⟩]

end ActionsOld

namespace Poller

/-! ### TaskPoller (src/src/taskPoller.ts lines 5-108)

The class state is `tryPollCount` and `settings`.  `updateSettings` merges a
`Partial<PollerSettings>` over the current settings with object spread and
calls `tryPoll` when
`shallowEqual({...new, interval: undefined}, {...old, interval: undefined})`
is false.  `shallowEqual` lives in `./shallowEqual`, which is not under
`src/`; it is modelled from the spec as field-wise `===` comparison, which
on these records (with `interval` overwritten by `undefined` on both sides)
is equality of `enabled`, `hostname` and `sid`.

`tryPoll` is split by its asynchronous phases: `tryPollStart` performs
`const count = ++this.tryPollCount` and begins a poll when enabled;
`scheduleNextPoll` is the `pollPromise.then` continuation that, when the
poller is still enabled after the cache write, schedules a timer for
`this.settings.interval * 1000` milliseconds capturing `count`; and
`scheduledPollFires` is the timer callback's guard
`count === this.tryPollCount`. -/

structure PollerSettings where
  enabled : Bool
  hostname : String
  sid : Option String
  interval : Nat
deriving DecidableEq

def DEFAULT_SETTINGS : PollerSettings := ⟨false, "", none, 60⟩

structure PartialPollerSettings where
  enabled : Option Bool
  hostname : Option String
  sid : Option (Option String)
  interval : Option Nat
deriving DecidableEq

/-- Model of `{ ...oldSettings, ...partial }`. -/
def mergeSettings (old : PollerSettings) (p : PartialPollerSettings) : PollerSettings :=
  ⟨p.enabled.getD old.enabled, p.hostname.getD old.hostname,
   p.sid.getD old.sid, p.interval.getD old.interval⟩

/-- Modelled from the spec: `shallowEqual` (imported from `./shallowEqual`,
not under `src/`) compares two flat records key by key with `===`; applied
to `{...a, interval: undefined}` and `{...b, interval: undefined}` it
reduces to equality of the three non-`interval` fields. -/
def shallowEqualExceptInterval (a b : PollerSettings) : Bool :=
  a.enabled == b.enabled && a.hostname == b.hostname && a.sid == b.sid

structure TaskPollerState where
  tryPollCount : Nat
  settings : PollerSettings
deriving DecidableEq

/-- The synchronous start of `tryPoll`: the count increment, and the
captured chain count of the poll begun when the poller is enabled. -/
def tryPollStart (st : TaskPollerState) : TaskPollerState × Option Nat :=
  let count := st.tryPollCount + 1
  let st2 : TaskPollerState := ⟨count, st.settings⟩
  if st2.settings.enabled then (st2, some count) else (st2, none)

structure ScheduledPoll where
  delayMs : Nat
  capturedCount : Nat
deriving DecidableEq

/-- The `pollPromise.then` continuation: when still enabled after the cache
write, `setTimeout(..., this.settings.interval * 1000)` capturing `count`. -/
def scheduleNextPoll (st : TaskPollerState) (capturedCount : Nat) : Option ScheduledPoll :=
  if st.settings.enabled then
    some ⟨st.settings.interval * 1000, capturedCount⟩
  else none

/-- The timer callback's guard: the chained `tryPoll` runs only when
`count === this.tryPollCount`. -/
def scheduledPollFires (st : TaskPollerState) (sp : ScheduledPoll) : Bool :=
  sp.capturedCount == st.tryPollCount

/-- `updateSettings` (lines 27-35): merge, store, and `tryPoll` when the
merged settings differ from the old ones ignoring `interval`.  Returns the
new state and whether a new poll chain was initiated. -/
def updateSettings (st : TaskPollerState) (p : PartialPollerSettings) :
    TaskPollerState × Bool :=
  let newSettings := mergeSettings st.settings p
  let oldSettings := st.settings
  let st1 : TaskPollerState := ⟨st.tryPollCount, newSettings⟩
  if shallowEqualExceptInterval newSettings oldSettings then (st1, false)
  else ((tryPollStart st1).fst, true)

/-- The storage shape written by `TaskPoller.tryPoll` (a different record
from the actions modules' `CachedTasks`). -/
structure TaskPollerWrite where
  tasks : Option (List Task)
  tasksFetchFailureMessage : Option (Option String)
  tasksFetchUpdateTimestamp : Option Nat
deriving DecidableEq

/-- The catch handler of the poll promise in `TaskPoller.tryPoll`
(lines 63-85): when still enabled it caches the classified failure message
with a fetch timestamp, otherwise it writes nothing. -/
def tryPollCatchWrite (st : TaskPollerState) (e : Option JsErrorShape) (now : Nat) :
    Option TaskPollerWrite :=
  if st.settings.enabled then
    some ⟨none, some (some (classifyPollError e)), some now⟩
  else none

end Poller

namespace DownloadTasks

/-! ### The multi-URL submission module (src/src/taskPoller.ts lines 109-331) -/

/-- A `FormFile` as built by this module: `new Blob([data], { type })` plus
a filename; the blob payload is abstracted to its media type. -/
structure FormFile where
  mediaType : String
  filename : String
deriving DecidableEq

/-- The `FormFile | string` union used by the per-URL pipeline
(`isFormFile` discriminates). -/
inductive TaskTarget where
  | file (f : FormFile)
  | uri (u : String)
deriving DecidableEq

/-! ### partitionPromises (lines 182-210)

A settled promise is modelled by its outcome; a rejection records whether
the reason was a (truthy) `Error` instance and, if so, its message.  The
accumulator's `rejected` list holds the messages of the accumulated
`Error`s: a reason that fails `e && e instanceof Error` is replaced by
`new Error`, whose message is the empty string.  `partitionGo` consumes the
queue front to back exactly as the recursive `next()` does. -/

inductive PromiseOutcome (T : Type) where
  | resolved (value : T)
  | rejected (isErrorInstance : Bool) (message : String)
deriving DecidableEq

structure PartitionAccumulator (T : Type) where
  resolved : List T
  rejected : List String
deriving DecidableEq

def partitionGo {T : Type} : List (PromiseOutcome T) → PartitionAccumulator T →
    PartitionAccumulator T
  | [], acc => acc
  | .resolved v :: rest, acc =>
    partitionGo rest ⟨acc.resolved ++ [v], acc.rejected⟩
  | .rejected isErr m :: rest, acc =>
    partitionGo rest ⟨acc.resolved, acc.rejected ++ [if isErr then m else ""]⟩

def partitionPromises {T : Type} (promises : List (PromiseOutcome T)) :
    PartitionAccumulator T :=
  partitionGo promises ⟨[], []⟩

/-! ### maybeMapUrlToFile (lines 242-266)

The HTTP environment: per-URL settled results of `Axios.head` and
`Axios.get`.  `HeadResponse.contentLength` models the JS number
`+response.headers['content-length']` (`none` when the coercion yields
`NaN`, including a missing header); `contentType` is
`response.headers['content-type']` (`none` when absent, in which case the
`.toLowerCase()` access throws and the promise rejects).  `GetResponse`
carries the `content-disposition` header consumed by `guessFileName`. -/

structure HeadResponse where
  contentType : Option String
  contentLength : Option Int
deriving DecidableEq

structure GetResponse where
  contentDisposition : Option String
deriving DecidableEq

structure HttpEnv where
  headResult : String → Except Unit HeadResponse
  getResult : String → Except Unit GetResponse

def maybeMapUrlToFile (env : HttpEnv) (url : String) : Except Unit TaskTarget :=
  if startsWithAnyProtocol url AUTO_DOWNLOAD_TORRENT_FILE_PROTOCOLS then
    match env.headResult url with
    | .error e => .error e
    | .ok head =>
      match head.contentType with
      | none => .error ()
      | some ct0 =>
        let contentType := jsToLower ct0
        let urlWithoutQuery := urlWithoutQueryOf url
        let metadataFileType := METADATA_FILE_TYPES.find? (fun fileType =>
          contentType == fileType.mediaType
            || jsEndsWith urlWithoutQuery fileType.extension)
        match metadataFileType, head.contentLength with
        | some fileType, some len =>
          if len < ARBITRARY_FILE_FETCH_SIZE_CUTOFF then
            match env.getResult url with
            | .error e => .error e
            | .ok getResp =>
              .ok (.file ⟨fileType.mediaType,
                guessFileName urlWithoutQuery getResp.contentDisposition fileType⟩)
          else .ok (.uri url)
        | some _, none => .ok (.uri url)
        | none, _ => .ok (.uri url)
  else .ok (.uri url)

/-! ### rejectUnknownUrls (lines 268-281) -/

/-- A rejection of the per-URL pipeline: an exception value (an `Error`
instance) propagated from `maybeMapUrlToFile`, or the plain-string
rejection produced by `rejectUnknownUrls`. -/
inductive UrlRejection where
  | jsError
  | invalidUrl (message : String)
deriving DecidableEq

def rejectUnknownUrls (taskOutcome : Except Unit TaskTarget) :
    Except UrlRejection TaskTarget :=
  match taskOutcome with
  | .error _ => .error .jsError
  | .ok (.file f) => .ok (.file f)
  | .ok (.uri u) =>
    if startsWithAnyProtocol u DOWNLOADABLE_PROTOCOLS then .ok (.uri u)
    else .error (.invalidUrl
      ("URL \x27" ++ u ++ "\x27 must start with one of "
        ++ String.intercalate ", " DOWNLOADABLE_PROTOCOLS))

/-- Feed a per-URL pipeline outcome to `partitionPromises`: the string
rejection of `rejectUnknownUrls` is not an `Error` instance. -/
def toPromiseOutcome : Except UrlRejection TaskTarget → PromiseOutcome TaskTarget
  | .ok t => .resolved t
  | .error .jsError => .rejected true ""
  | .error (.invalidUrl m) => .rejected false m

/-! ### addDownloadTasksAndPoll (lines 212-331)

The trace records the Task.Create requests issued (via `doCreateTask`), the
terminal notification (the `notify` calls after the initial
"Adding download..." one), and whether `pollTasks` was invoked afterwards.
`createResult` is the settled result of the `doCreateTask` promise
(`Except.error` = rejection, handled by `.catch(notifyUnexpectedError)`).
Note that the local `notifyTaskAddResult` of this module is defined but
never invoked: a completed create request produces no notification. -/

structure Notification where
  title : String
  message : Option String
  severity : Option String
deriving DecidableEq

structure CreateRequestMulti where
  file : List FormFile
  uri : List String
  destination : Option String
deriving DecidableEq

structure FlowTrace (Req : Type) where
  createRequests : List Req
  terminalNotification : Option Notification
  polled : Bool
deriving DecidableEq

structure MultiFlowEnv where
  http : HttpEnv
  createResult : Except Unit (ApiCallResult Unit)

/-- Model of `path && path.startsWith('/') ? path.slice(1) : undefined`. -/
def destinationOf : Option String → Option String
  | none => none
  | some p =>
    if p = "" then none
    else if jsStartsWith p "/" then some ⟨p.data.drop 1⟩
    else none

def addDownloadTasksAndPoll (env : MultiFlowEnv) (urls : List String)
    (path : Option String) : FlowTrace CreateRequestMulti :=
  if urls.length > 0 then
    let destination := destinationOf path
    let outcomes := (urls.map (fun u =>
      rejectUnknownUrls (maybeMapUrlToFile env.http u))).map toPromiseOutcome
    let parts := partitionPromises outcomes
    if parts.resolved.length = 0 then
      -- resolved.length === 0: resolves without any further notify call
      ⟨[], none, false⟩
    else
      -- the reduce over `resolved` splits it into files and uris in order
      let file := parts.resolved.filterMap (fun t =>
        match t with | .file f => some f | .uri _ => none)
      let uri := parts.resolved.filterMap (fun t =>
        match t with | .uri u => some u | .file _ => none)
      match env.createResult with
      | .error _ =>
        ⟨[⟨file, uri, destination⟩],
         some ⟨"Failed to add download",
           some "Unexpected error; please check your settings and try again", none⟩,
         false⟩
      | .ok _ =>
        -- `.then(pollOnResponse)` only: notifyTaskAddResult is never called
        ⟨[⟨file, uri, destination⟩], none, true⟩
  else
    ⟨[], some ⟨"Failed to add download", some "No URL to download given", none⟩, false⟩

end DownloadTasks

namespace Actions

/-! ### guessFileNameFromUrl (src/unnamed/part_000 lines 408-419)

`ED2K_FILENAME_REGEX = /\|file\|([^\|]+)\|/` is modelled with a left-to-right
scanner like the filename regex; `parseQueryString(url).dn` comes from the
external `query-string` package and is abstracted as a function argument. -/

def ed2kBranch : List Char → Option (List Char)
  | rest =>
    let run := rest.takeWhile (fun x => x ≠ '|')
    if run.isEmpty then none
    else if (rest.drop run.length).head? = some '|' then some run
    else none

def ed2kCaptureAux : List Char → Option (List Char)
  | [] => none
  | c :: rest =>
    if ("|file|".data).isPrefixOf (c :: rest) then
      match ed2kBranch ((c :: rest).drop 6) with
      | some cap => some cap
      | none => ed2kCaptureAux rest
    else ed2kCaptureAux rest

def ed2kCapture (s : String) : Option String :=
  (ed2kCaptureAux s.data).map (fun l => ⟨l⟩)

def guessFileNameFromUrl (parseQueryDn : String → Option String) (url : String) :
    Option String :=
  if jsStartsWith url "magnet:" then parseQueryDn url
  else if jsStartsWith url "ed2k:" then ed2kCapture url
  else none

/-! ### addDownloadTaskAndPoll (src/unnamed/part_000 lines 425-499)

Environment: the settled results of `Axios.head`, `Axios.get` and
`doCreateTask`, plus the two external string functions.  The trace records
the Task.Create requests issued, the terminal notification (every `notify`
call after the initial "Adding download..." one carries a severity), and
whether `pollTasks` ran afterwards.  Any rejection inside the promise chain
(HEAD/GET failure, the `TypeError` from reading `content-type` off a
response without one, or a `doCreateTask` rejection) is caught by
`.catch(notifyUnexpectedError)`. -/

structure SingleFlowEnv where
  headResult : Except Unit DownloadTasks.HeadResponse
  getResult : Except Unit DownloadTasks.GetResponse
  createResult : Except Unit (ApiCallResult Unit)
  parseQueryDn : String → Option String
  errorMessageFromCode : Nat → String

/-- Model of `filename || url` (an `undefined` or empty filename falls back
to the URL). -/
def jsOrString (filename : Option String) (url : String) : String :=
  match filename with
  | none => url
  | some f => if f = "" then url else f

/-- Model of `notifyTaskAddResult(filename?)` applied to the settled create
result (lines 429-440). -/
def notifyTaskAddResult (emc : Nat → String) (filename : Option String)
    (url : String) : ApiCallResult Unit → DownloadTasks.Notification
  | .connectionFailure _ =>
    ⟨"Failed to connection to DiskStation", some "Please check your settings.",
     some "failure"⟩
  | .response (.success _) =>
    ⟨"Download added", some (jsOrString filename url), some "success"⟩
  | .response (.failure code) =>
    ⟨"Failed to add download", some (emc code), some "failure"⟩

def unexpectedErrorNotification : DownloadTasks.Notification :=
  ⟨"Failed to add download",
   some "Unexpected error; please check your settings and try again",
   some "failure"⟩

/-- Issue a `doCreateTask` request and settle the rest of the chain:
`.then(notifyTaskAddResult(...)).then(pollOnResponse)`, rejections going to
`.catch(notifyUnexpectedError)`. -/
def runCreateSingle (env : SingleFlowEnv) (req : CreateRequestSingle)
    (filename : Option String) (url : String) :
    DownloadTasks.FlowTrace CreateRequestSingle :=
  match env.createResult with
  | .error _ => ⟨[req], some unexpectedErrorNotification, false⟩
  | .ok result =>
    ⟨[req], some (notifyTaskAddResult env.errorMessageFromCode filename url result),
     true⟩

def addDownloadTaskAndPoll (env : SingleFlowEnv) (url : String)
    (path : Option String) : DownloadTasks.FlowTrace CreateRequestSingle :=
  let destination := DownloadTasks.destinationOf path
  if url = "" then
    ⟨[], some ⟨"Failed to add download", some "No URL to download given",
      some "failure"⟩, false⟩
  else if startsWithAnyProtocol url AUTO_DOWNLOAD_TORRENT_FILE_PROTOCOLS then
    match env.headResult with
    | .error _ => ⟨[], some unexpectedErrorNotification, false⟩
    | .ok head =>
      match head.contentType with
      | none => ⟨[], some unexpectedErrorNotification, false⟩
      | some ct0 =>
        let contentType := jsToLower ct0
        let urlWithoutQuery := urlWithoutQueryOf url
        let metadataFileType := METADATA_FILE_TYPES.find? (fun fileType =>
          contentType == fileType.mediaType
            || jsEndsWith urlWithoutQuery fileType.extension)
        match metadataFileType, head.contentLength with
        | some fileType, some len =>
          if len < ARBITRARY_FILE_FETCH_SIZE_CUTOFF then
            match env.getResult with
            | .error _ => ⟨[], some unexpectedErrorNotification, false⟩
            | .ok getResp =>
              let filename := guessTorrentFileName urlWithoutQuery
                getResp.contentDisposition fileType
              runCreateSingle env
                ⟨some ⟨fileType.mediaType, filename⟩, none, destination⟩
                (some filename) url
          else runCreateSingle env ⟨none, some [url], destination⟩ none url
        | some _, none => runCreateSingle env ⟨none, some [url], destination⟩ none url
        | none, _ => runCreateSingle env ⟨none, some [url], destination⟩ none url
  else if startsWithAnyProtocol url ALL_DOWNLOADABLE_PROTOCOLS then
    runCreateSingle env ⟨none, some [url], destination⟩
      (guessFileNameFromUrl env.parseQueryDn url) url
  else
    ⟨[], some ⟨"Failed to add download",
      some ("URL must start with one of "
        ++ String.intercalate ", " ALL_DOWNLOADABLE_PROTOCOLS),
      some "failure"⟩, false⟩

end Actions

/-! ## Helper lemmas -/

theorem fallbackDownload_ne_empty (o : Option String) : fallbackDownload o ≠ "" := by
  cases o with
  | none => simp [fallbackDownload]
  | some f =>
    by_cases hf : f = "" <;> simp [fallbackDownload, hf]

theorem finishWithExtension_spec (base ext : String) (h : base ≠ "") :
    (if jsEndsWith base ext = true then base else base ++ ext) ≠ "" ∧
    jsEndsWith (if jsEndsWith base ext = true then base else base ++ ext) ext = true := by
  by_cases hb : jsEndsWith base ext = true
  · simp only [hb, if_true]
    exact ⟨h, trivial⟩
  · simp only [hb, if_false]
    exact ⟨append_ne_empty_left _ _ h, jsEndsWith_append _ _⟩

theorem partitionGo_spec {T : Type} (ps : List (DownloadTasks.PromiseOutcome T))
    (acc : DownloadTasks.PartitionAccumulator T) :
    DownloadTasks.partitionGo ps acc =
      ⟨acc.resolved ++ ps.filterMap (fun o => match o with
          | .resolved v => some v | .rejected _ _ => none),
       acc.rejected ++ ps.filterMap (fun o => match o with
          | .resolved _ => none
          | .rejected isErr m => some (if isErr then m else ""))⟩ := by
  induction ps generalizing acc with
  | nil => simp [DownloadTasks.partitionGo]
  | cons p rest ih =>
    cases p with
    | resolved v => simp [DownloadTasks.partitionGo, ih]
    | rejected isErr m => simp [DownloadTasks.partitionGo, ih]

theorem filterMap_length_partition {T : Type} (ps : List (DownloadTasks.PromiseOutcome T)) :
    (ps.filterMap (fun o => match o with
        | .resolved v => some v | .rejected _ _ => none)).length
      + (ps.filterMap (fun o => match o with
          | .resolved _ => none
          | .rejected isErr m => some (if isErr then m else ""))).length
      = ps.length := by
  induction ps with
  | nil => rfl
  | cons p rest ih =>
    cases p with
    | resolved v =>
      simp only [List.filterMap_cons, List.length_cons]
      omega
    | rejected isErr m =>
      simp only [List.filterMap_cons, List.length_cons]
      omega

/-! ## Claim theorems -/

/-- Claim C2: for every function wrapped by `wrapInNoPermissionsRetry` and every
invocation behaviour of the wrapped function, if the first result is a
non-connection-failure unsuccessful response with error code 105 the
wrapper logs out and invokes the wrapped function exactly once more,
returning the second result; otherwise it returns the first result
unchanged without logging out; the wrapped function runs at most twice; and
`doTaskPoll` and `doCreateTask` are exactly `wrapInNoPermissionsRetry`
applied to the remote `Task.List` and `Task.Create` calls. -/
theorem claim_C2_noPermissionsRetry (α : Type) (fn : Nat → ApiCallResult α) :
    (Actions.wrapInNoPermissionsRetry fn).callCount ≤ 2 ∧
    ((!(isConnectionFailure (fn 0)) && !(resultSuccess (fn 0))
        && resultErrorCode (fn 0) == some 105) = true →
      Actions.wrapInNoPermissionsRetry fn = ⟨fn 1, 2, true⟩) ∧
    ((!(isConnectionFailure (fn 0)) && !(resultSuccess (fn 0))
        && resultErrorCode (fn 0) == some 105) = false →
      Actions.wrapInNoPermissionsRetry fn = ⟨fn 0, 1, false⟩) ∧
    (∀ api : Actions.ApiClientModel,
      Actions.doTaskPoll api
        = Actions.wrapInNoPermissionsRetry (api.taskList Actions.taskPollRequest)) ∧
    (∀ (api : Actions.ApiClientModel) (options : Actions.CreateRequestSingle),
      Actions.doCreateTask api options
        = Actions.wrapInNoPermissionsRetry (api.taskCreate options)) := by
  refine ⟨?_, ?_, ?_, fun api => rfl, fun api options => rfl⟩
  · by_cases h : (!(isConnectionFailure (fn 0)) && !(resultSuccess (fn 0))
        && resultErrorCode (fn 0) == some 105) = true
    · simp [Actions.wrapInNoPermissionsRetry, Actions.NO_PERMISSIONS_ERROR_CODE, h]
    · simp [Actions.wrapInNoPermissionsRetry, Actions.NO_PERMISSIONS_ERROR_CODE, h]
  · intro h
    simp [Actions.wrapInNoPermissionsRetry, Actions.NO_PERMISSIONS_ERROR_CODE, h]
  · intro h
    simp [Actions.wrapInNoPermissionsRetry, Actions.NO_PERMISSIONS_ERROR_CODE, h]

/-- Witness for C2 at a concrete wrapped function whose first call fails
with code 105 and whose second call succeeds. -/
theorem claim_C2_noPermissionsRetry_witness :
    Actions.wrapInNoPermissionsRetry
        (fun n => if n = 0 then ApiCallResult.response (.failure 105)
          else ApiCallResult.response (.success ()))
      = ⟨ApiCallResult.response (.success ()), 2, true⟩ :=
  (claim_C2_noPermissionsRetry Unit
    (fun n => if n = 0 then ApiCallResult.response (.failure 105)
      else ApiCallResult.response (.success ()))).2.1 (by decide)

/-- Claim C3: `TaskPoller.updateSettings` stores the old settings overwritten by
the given partial fields, and initiates a new poll exactly when the merged
settings differ from the previous ones on a field other than `interval`. -/
theorem claim_C3_updateSettings (st : Poller.TaskPollerState)
    (p : Poller.PartialPollerSettings) :
    ((Poller.updateSettings st p).fst).settings = Poller.mergeSettings st.settings p ∧
    ((Poller.updateSettings st p).snd = true ↔
      ((Poller.mergeSettings st.settings p).enabled ≠ st.settings.enabled ∨
       (Poller.mergeSettings st.settings p).hostname ≠ st.settings.hostname ∨
       (Poller.mergeSettings st.settings p).sid ≠ st.settings.sid)) := by
  constructor
  · by_cases h : Poller.shallowEqualExceptInterval
        (Poller.mergeSettings st.settings p) st.settings = true
    · simp [Poller.updateSettings, h]
    · simp [Poller.updateSettings, h, Poller.tryPollStart]
      split <;> rfl
  · by_cases h : Poller.shallowEqualExceptInterval
        (Poller.mergeSettings st.settings p) st.settings = true
    · simp only [Poller.updateSettings, h, if_true]
      simp only [Poller.shallowEqualExceptInterval, Bool.and_eq_true, beq_iff_eq] at h
      simp only [h.1.1, h.1.2, h.2, ne_eq, not_true_eq_false, or_self]
      simp
    · simp only [Poller.updateSettings, h, if_false]
      simp only [Poller.shallowEqualExceptInterval, Bool.and_eq_true, beq_iff_eq] at h
      constructor
      · intro _
        by_contra hc
        push_neg at hc
        exact h ⟨⟨hc.1, hc.2.1⟩, hc.2.2⟩
      · intro _
        rfl

/-- Claim C9: `guessTorrentFileName` (= `guessFileName`) always returns a
non-empty filename ending with the metadata file type's extension, for
every URL-without-query, content-disposition header value and metadata
file type. -/
theorem claim_C9_guessFileName (urlWithoutQuery : String)
    (contentDisposition : Option String) (metadataFileType : MetadataFileType) :
    guessTorrentFileName urlWithoutQuery contentDisposition metadataFileType ≠ "" ∧
    jsEndsWith (guessTorrentFileName urlWithoutQuery contentDisposition metadataFileType)
      metadataFileType.extension = true :=
  finishWithExtension_spec
    (fallbackDownload (chooseRawFileName urlWithoutQuery contentDisposition))
    metadataFileType.extension
    (fallbackDownload_ne_empty _)

/-- Claim C10: `partitionPromises` settles the promises in list order, never
rejects, and returns resolved values and rejected errors that partition the
input (lengths sum to the input length, each sublist in input order), with
any non-`Error` rejection reason replaced by a fresh `Error` (whose message
is empty). -/
theorem claim_C10_partitionPromises (T : Type)
    (promises : List (DownloadTasks.PromiseOutcome T)) :
    DownloadTasks.partitionPromises promises =
      ⟨promises.filterMap (fun o => match o with
          | .resolved v => some v | .rejected _ _ => none),
       promises.filterMap (fun o => match o with
          | .resolved _ => none
          | .rejected isErr m => some (if isErr then m else ""))⟩ ∧
    (DownloadTasks.partitionPromises promises).resolved.length
        + (DownloadTasks.partitionPromises promises).rejected.length
      = promises.length := by
  have hspec := partitionGo_spec promises
    (⟨[], []⟩ : DownloadTasks.PartitionAccumulator T)
  constructor
  · simpa [DownloadTasks.partitionPromises] using hspec
  · have h2 := filterMap_length_partition promises
    simp only [DownloadTasks.partitionPromises, hspec]
    simpa using h2

/-- Claim C6: the failure message cached when a poll's promise chain rejects
depends only on the error's shape: a response with status 400 yields the
wrong-protocol message, a message equal to `Network Error` yields the
hostname/port message, anything else yields `Unknown error.`; and both
rejection handlers (the older `pollTasks` and `TaskPoller.tryPoll`) cache
exactly this classification. -/
theorem claim_C6_pollErrorClassification (e : Option JsErrorShape) :
    (∀ (err : JsErrorShape) (r : JsResponseInfo),
      e = some err → err.response = some r → r.status = 400 →
      classifyPollError e = "Connection failure (likely wrong protocol).") ∧
    (∀ err : JsErrorShape, e = some err →
      (∀ r : JsResponseInfo, err.response = some r → r.status ≠ 400) →
      err.message = some "Network Error" →
      classifyPollError e
        = "Connection failure (likely incorrect hostname/port or no internet connection).") ∧
    (∀ err : JsErrorShape, e = some err →
      (∀ r : JsResponseInfo, err.response = some r → r.status ≠ 400) →
      err.message ≠ some "Network Error" →
      classifyPollError e = "Unknown error.") ∧
    (e = none → classifyPollError e = "Unknown error.") ∧
    (∀ (emc : Nat → String) (nInit nDone : Nat),
      ActionsOld.pollTasks emc nInit nDone (.error e) =
        [initiatedWrite nInit,
         ⟨none, some (some (.withMessage (classifyPollError e))), some nDone, none⟩]) ∧
    (∀ (st : Poller.TaskPollerState) (now : Nat), st.settings.enabled = true →
      Poller.tryPollCatchWrite st e now
        = some ⟨none, some (some (classifyPollError e)), some now⟩) := by
  refine ⟨?_, ?_, ?_, ?_, fun emc nInit nDone => rfl, ?_⟩
  · intro err r he hr hst
    subst he
    simp [classifyPollError, hr, hst]
  · intro err he h400 hmsg
    subst he
    have hcond : (match err.response with
        | some r => r.status == 400 | none => false) = false := by
      cases hresp : err.response with
      | none => rfl
      | some r => simpa using h400 r hresp
    simp [classifyPollError, hcond, hmsg]
  · intro err he h400 hmsg
    subst he
    have hcond : (match err.response with
        | some r => r.status == 400 | none => false) = false := by
      cases hresp : err.response with
      | none => rfl
      | some r => simpa using h400 r hresp
    have hmsg2 : (err.message == some "Network Error") = false := by
      simpa using hmsg
    simp [classifyPollError, hcond, hmsg2]
  · intro he
    subst he
    rfl
  · intro st now hen
    simp [Poller.tryPollCatchWrite, hen]

/-- Witness for C6 at a concrete status-400 error, including the cached
writes of both rejection handlers. -/
theorem claim_C6_pollErrorClassification_witness :
    classifyPollError (some ⟨some ⟨400⟩, none⟩)
        = "Connection failure (likely wrong protocol)." ∧
    Poller.tryPollCatchWrite ⟨3, ⟨true, "nas.local", some "sid", 60⟩⟩
        (some ⟨some ⟨400⟩, none⟩) 7
      = some ⟨none,
          some (some "Connection failure (likely wrong protocol)."), some 7⟩ := by
  have h := claim_C6_pollErrorClassification (some ⟨some ⟨400⟩, none⟩)
  refine ⟨h.1 ⟨some ⟨400⟩, none⟩ ⟨400⟩ rfl rfl rfl, ?_⟩
  have h2 := h.2.2.2.2.2 ⟨3, ⟨true, "nas.local", some "sid", 60⟩⟩ 7 rfl
  rw [h2]
  rw [h.1 ⟨some ⟨400⟩, none⟩ ⟨400⟩ rfl rfl rfl]

theorem pollTasksResponseWrite_completed (emcf : ConnFailure → String)
    (emc : Nat → String) (now : Nat) (r : ApiCallResult (List Task)) :
    (Actions.pollTasksResponseWrite emcf emc now r).tasksLastCompletedFetchTimestamp
      = some now := by
  cases r with
  | connectionFailure cf =>
    by_cases h : (cf.type == "missing-config") = true <;>
      simp [Actions.pollTasksResponseWrite, Actions.setCachedTasksResponse, h]
  | response resp =>
    cases resp <;> rfl

/-- Claim C1: every invocation of `pollTasks`, for every outcome of the remote
`Task.List` call, writes a cached snapshot carrying a completed-fetch
timestamp; a successful response replaces the cached tasks and nulls the
failure reason, a connection failure caches `missing-config` or a failure
message, and an unsuccessful response caches a failure message.  The older
`pollTasks` additionally writes a completed-fetch snapshot even when the
promise chain rejects. -/
theorem claim_C1_pollTasks_cacheWrites (emcf : ConnFailure → String)
    (emc : Nat → String) (nInit nDone : Nat) :
    (∀ tasks : List Task,
      Actions.pollTasks emcf emc nInit nDone (.ok (.response (.success tasks))) =
        [initiatedWrite nInit, ⟨some tasks, some none, some nDone, none⟩]) ∧
    (∀ cf : ConnFailure, cf.type = "missing-config" →
      Actions.pollTasks emcf emc nInit nDone (.ok (.connectionFailure cf)) =
        [initiatedWrite nInit,
         ⟨none, some (some .missingConfig), some nDone, none⟩]) ∧
    (∀ cf : ConnFailure, cf.type ≠ "missing-config" →
      Actions.pollTasks emcf emc nInit nDone (.ok (.connectionFailure cf)) =
        [initiatedWrite nInit,
         ⟨none, some (some (.withMessage (emcf cf))), some nDone, none⟩]) ∧
    (∀ code : Nat,
      Actions.pollTasks emcf emc nInit nDone (.ok (.response (.failure code))) =
        [initiatedWrite nInit,
         ⟨none, some (some (.withMessage (emc code))), some nDone, none⟩]) ∧
    (∀ r : ApiCallResult (List Task), ∃ w : CachedTasksWrite,
      Actions.pollTasks emcf emc nInit nDone (.ok r) = [initiatedWrite nInit, w] ∧
      w.tasksLastCompletedFetchTimestamp = some nDone) ∧
    (∀ outcome : Except (Option JsErrorShape) (ApiCallResult (List Task)),
      ∃ w : CachedTasksWrite,
        ActionsOld.pollTasks emc nInit nDone outcome = [initiatedWrite nInit, w] ∧
        w.tasksLastCompletedFetchTimestamp = some nDone) := by
  refine ⟨fun tasks => rfl, ?_, ?_, fun code => rfl, ?_, ?_⟩
  · intro cf h
    have hb : (cf.type == "missing-config") = true := by simpa using h
    simp [Actions.pollTasks, Actions.pollTasksResponseWrite,
      Actions.setCachedTasksResponse, emptyWrite, hb]
  · intro cf h
    have hb : (cf.type == "missing-config") = false := by simpa using h
    simp [Actions.pollTasks, Actions.pollTasksResponseWrite,
      Actions.setCachedTasksResponse, emptyWrite, hb]
  · intro r
    exact ⟨Actions.pollTasksResponseWrite emcf emc nDone r, rfl,
      pollTasksResponseWrite_completed emcf emc nDone r⟩
  · intro outcome
    match outcome with
    | .ok (.connectionFailure cf) =>
      by_cases h : (cf.type == "missing-config") = true
      · exact ⟨⟨none, some (some .missingConfig), some nDone, none⟩,
          by simp [ActionsOld.pollTasks, h], rfl⟩
      · refine ⟨⟨none, some (some (.withMessage cf.failureMessage)), some nDone, none⟩,
          ?_, rfl⟩
        simp only [ActionsOld.pollTasks]
        rw [if_neg (by simpa using h)]
    | .ok (.response (.success tasks)) =>
      exact ⟨⟨some tasks, some none, some nDone, none⟩, rfl, rfl⟩
    | .ok (.response (.failure code)) =>
      exact ⟨⟨none, some (some (.withMessage (emc code))), some nDone, none⟩, rfl, rfl⟩
    | .error e =>
      exact ⟨⟨none, some (some (.withMessage (classifyPollError e))), some nDone, none⟩,
        rfl, rfl⟩

/-- Witness for C1 at a concrete missing-config connection failure. -/
theorem claim_C1_pollTasks_cacheWrites_witness :
    Actions.pollTasks (fun cf => cf.failureMessage) (fun _ => "err") 1 2
        (.ok (.connectionFailure ⟨"missing-config", "m"⟩)) =
      [initiatedWrite 1, ⟨none, some (some .missingConfig), some 2, none⟩] :=
  (claim_C1_pollTasks_cacheWrites (fun cf => cf.failureMessage)
    (fun _ => "err") 1 2).2.1 ⟨"missing-config", "m"⟩ rfl

/-- Claim C8: while the poller is enabled, the continuation after a poll's cache
write schedules the next poll `interval * 1000` milliseconds later with the
chain's captured count; a scheduled poll fires exactly when its captured
count still equals the current `tryPollCount`; and once `updateSettings`
has started a new chain, no scheduled poll of an older chain fires. -/
theorem claim_C8_pollScheduling (st : Poller.TaskPollerState) (c : Nat)
    (sp : Poller.ScheduledPoll) :
    (st.settings.enabled = true →
      Poller.scheduleNextPoll st c = some ⟨st.settings.interval * 1000, c⟩) ∧
    (Poller.scheduledPollFires st sp = true ↔ sp.capturedCount = st.tryPollCount) ∧
    (∀ p : Poller.PartialPollerSettings,
      sp.capturedCount ≤ st.tryPollCount →
      (Poller.updateSettings st p).snd = true →
      Poller.scheduledPollFires ((Poller.updateSettings st p).fst) sp = false) := by
  refine ⟨?_, ?_, ?_⟩
  · intro hen
    simp [Poller.scheduleNextPoll, hen]
  · simp [Poller.scheduledPollFires]
  · intro p hle hpoll
    by_cases h : Poller.shallowEqualExceptInterval
        (Poller.mergeSettings st.settings p) st.settings = true
    · simp [Poller.updateSettings, h] at hpoll
    · have hcount : ((Poller.updateSettings st p).fst).tryPollCount
          = st.tryPollCount + 1 := by
        simp only [Poller.updateSettings, Poller.tryPollStart]
        rw [if_neg h]
        split <;> rfl
      simp only [Poller.scheduledPollFires, hcount]
      simp only [beq_eq_false_iff_ne, ne_eq]
      omega

/-- Witness for C8: a concrete hostname change starts a new chain and an
older chain's scheduled poll does not fire. -/
theorem claim_C8_pollScheduling_witness :
    Poller.scheduleNextPoll ⟨5, ⟨true, "a", some "s", 60⟩⟩ 6 = some ⟨60000, 6⟩ ∧
    Poller.scheduledPollFires
        ((Poller.updateSettings ⟨5, ⟨true, "a", some "s", 60⟩⟩
          ⟨none, some "b", none, none⟩).fst) ⟨60000, 5⟩ = false := by
  have h := claim_C8_pollScheduling ⟨5, ⟨true, "a", some "s", 60⟩⟩ 6 ⟨60000, 5⟩
  exact ⟨h.1 rfl, h.2.2 ⟨none, some "b", none, none⟩ (by decide) (by decide)⟩

/-- Claim C5: for a submitted http/https URL whose HEAD request settles with
headers, the metadata file is fetched and attached as a form file exactly
when some metadata file type matches (by lowercased content type or by the
extension of the URL without its query string) and the content length
parses as a number strictly below 5 MiB; otherwise the URL is submitted as
a URI. -/
theorem claim_C5_maybeMapUrlToFile (env : DownloadTasks.HttpEnv) (url : String)
    (head : DownloadTasks.HeadResponse) (getResp : DownloadTasks.GetResponse)
    (ct0 : String)
    (hauto : startsWithAnyProtocol url AUTO_DOWNLOAD_TORRENT_FILE_PROTOCOLS = true)
    (hhead : env.headResult url = .ok head)
    (hct : head.contentType = some ct0)
    (hget : env.getResult url = .ok getResp) :
    ((METADATA_FILE_TYPES.find? (fun fileType =>
        jsToLower ct0 == fileType.mediaType
          || jsEndsWith (urlWithoutQueryOf url) fileType.extension)).isSome = true ↔
      ∃ fileType, fileType ∈ METADATA_FILE_TYPES ∧
        (jsToLower ct0 == fileType.mediaType
          || jsEndsWith (urlWithoutQueryOf url) fileType.extension) = true) ∧
    (∀ (fileType : MetadataFileType) (len : Int),
      METADATA_FILE_TYPES.find? (fun fileType =>
        jsToLower ct0 == fileType.mediaType
          || jsEndsWith (urlWithoutQueryOf url) fileType.extension) = some fileType →
      head.contentLength = some len →
      len < ARBITRARY_FILE_FETCH_SIZE_CUTOFF →
      DownloadTasks.maybeMapUrlToFile env url =
        .ok (.file ⟨fileType.mediaType,
          guessFileName (urlWithoutQueryOf url) getResp.contentDisposition fileType⟩)) ∧
    (METADATA_FILE_TYPES.find? (fun fileType =>
        jsToLower ct0 == fileType.mediaType
          || jsEndsWith (urlWithoutQueryOf url) fileType.extension) = none →
      DownloadTasks.maybeMapUrlToFile env url = .ok (.uri url)) ∧
    (head.contentLength = none →
      DownloadTasks.maybeMapUrlToFile env url = .ok (.uri url)) ∧
    (∀ len : Int, head.contentLength = some len →
      ¬(len < ARBITRARY_FILE_FETCH_SIZE_CUTOFF) →
      DownloadTasks.maybeMapUrlToFile env url = .ok (.uri url)) := by
  have hflow : DownloadTasks.maybeMapUrlToFile env url
      = (match METADATA_FILE_TYPES.find? (fun fileType =>
            jsToLower ct0 == fileType.mediaType
              || jsEndsWith (urlWithoutQueryOf url) fileType.extension),
           head.contentLength with
         | some fileType, some len =>
           if len < ARBITRARY_FILE_FETCH_SIZE_CUTOFF then
             match env.getResult url with
             | .error e => .error e
             | .ok getResp2 =>
               .ok (.file ⟨fileType.mediaType,
                 guessFileName (urlWithoutQueryOf url) getResp2.contentDisposition
                   fileType⟩)
           else .ok (.uri url)
         | some _, none => .ok (.uri url)
         | none, _ => .ok (.uri url)) := by
    simp only [DownloadTasks.maybeMapUrlToFile, hauto, if_true, hhead, hct]
  refine ⟨?_, ?_, ?_, ?_, ?_⟩
  · simp [List.find?_isSome]
  · intro fileType len hfind hlen hlt
    rw [hflow, hfind, hlen]
    simp [hlt, hget]
  · intro hfind
    rw [hflow, hfind]
  · intro hlen
    rw [hflow, hlen]
    cases METADATA_FILE_TYPES.find? (fun fileType =>
        jsToLower ct0 == fileType.mediaType
          || jsEndsWith (urlWithoutQueryOf url) fileType.extension) <;> rfl
  · intro len hlen hnlt
    rw [hflow, hlen]
    cases METADATA_FILE_TYPES.find? (fun fileType =>
        jsToLower ct0 == fileType.mediaType
          || jsEndsWith (urlWithoutQueryOf url) fileType.extension) with
    | none => rfl
    | some fileType => simp [hnlt]

/-- Witness for C5: a concrete `.torrent` URL with a small content length
is mapped to a form file. -/
theorem claim_C5_maybeMapUrlToFile_witness :
    DownloadTasks.maybeMapUrlToFile
        ⟨fun _ => Except.ok ⟨some "text/html", some 10⟩,
         fun _ => Except.ok ⟨none⟩⟩
        "http://a/b.torrent"
      = .ok (.file ⟨"application/x-bittorrent", "b.torrent"⟩) := by
  have h := claim_C5_maybeMapUrlToFile
    ⟨fun _ => Except.ok ⟨some "text/html", some 10⟩, fun _ => Except.ok ⟨none⟩⟩
    "http://a/b.torrent" ⟨some "text/html", some 10⟩ ⟨none⟩ "text/html"
    (by decide) rfl rfl rfl
  exact h.2.1 ⟨"application/x-bittorrent", ".torrent"⟩ 10 (by decide) rfl (by decide)

theorem not_startsAuto_of_not_startsAll (url : String)
    (h : startsWithAnyProtocol url ALL_DOWNLOADABLE_PROTOCOLS = false) :
    startsWithAnyProtocol url AUTO_DOWNLOAD_TORRENT_FILE_PROTOCOLS = false := by
  simp only [startsWithAnyProtocol, ALL_DOWNLOADABLE_PROTOCOLS,
    DOWNLOADABLE_PROTOCOLS, AUTO_DOWNLOAD_TORRENT_FILE_PROTOCOLS,
    List.any_cons, List.any_nil, Bool.or_eq_false_iff] at h ⊢
  exact ⟨h.1, h.2.1, trivial⟩

theorem rejectUnknownUrls_ok_uri (x : Except Unit DownloadTasks.TaskTarget)
    (u : String) (h : DownloadTasks.rejectUnknownUrls x = .ok (.uri u)) :
    startsWithAnyProtocol u DOWNLOADABLE_PROTOCOLS = true := by
  match x with
  | .error e => simp [DownloadTasks.rejectUnknownUrls] at h
  | .ok (.file f) => simp [DownloadTasks.rejectUnknownUrls] at h
  | .ok (.uri v) =>
    by_cases hs : startsWithAnyProtocol v DOWNLOADABLE_PROTOCOLS = true
    · have hv : v = u := by
        simpa [DownloadTasks.rejectUnknownUrls, hs] using h
      rw [← hv]
      exact hs
    · simp [DownloadTasks.rejectUnknownUrls, hs] at h

theorem toPromiseOutcome_resolved
    (y : Except DownloadTasks.UrlRejection DownloadTasks.TaskTarget)
    (t : DownloadTasks.TaskTarget)
    (h : DownloadTasks.toPromiseOutcome y = .resolved t) : y = .ok t := by
  match y with
  | .ok t2 =>
    have : t2 = t := by simpa [DownloadTasks.toPromiseOutcome] using h
    rw [this]
  | .error .jsError => simp [DownloadTasks.toPromiseOutcome] at h
  | .error (.invalidUrl m) => simp [DownloadTasks.toPromiseOutcome] at h

theorem multiFlow_uri_starts (env : DownloadTasks.MultiFlowEnv) (urls : List String)
    (path : Option String) (req : DownloadTasks.CreateRequestMulti)
    (hreq : req ∈ (DownloadTasks.addDownloadTasksAndPoll env urls path).createRequests)
    (r : String) (hr : r ∈ req.uri) :
    startsWithAnyProtocol r DOWNLOADABLE_PROTOCOLS = true := by
  simp only [DownloadTasks.addDownloadTasksAndPoll] at hreq
  split at hreq
  case isFalse => simp at hreq
  case isTrue hlen =>
    split at hreq
    case isTrue => simp at hreq
    case isFalse hres =>
      split at hreq <;>
      · simp only [List.mem_singleton] at hreq
        subst hreq
        simp only [List.mem_filterMap] at hr
        obtain ⟨t, ht, htr⟩ := hr
        have ht2 : t = DownloadTasks.TaskTarget.uri r := by
          cases t with
          | file f => simp at htr
          | uri u2 =>
            have : u2 = r := by simpa using htr
            rw [this]
        subst ht2
        simp only [DownloadTasks.partitionPromises, partitionGo_spec] at ht
        simp only [List.nil_append, List.mem_filterMap, List.mem_map] at ht
        obtain ⟨o, ⟨y, ⟨u0, hu0, hy⟩, hyo⟩, hores⟩ := ht
        have hot : o = DownloadTasks.PromiseOutcome.resolved
            (DownloadTasks.TaskTarget.uri r) := by
          cases o with
          | resolved v =>
            have hv : v = DownloadTasks.TaskTarget.uri r := by simpa using hores
            rw [hv]
          | rejected b m => simp at hores
        rw [hot] at hyo
        have hyok := toPromiseOutcome_resolved _ _ hyo
        rw [hyok] at hy
        exact rejectUnknownUrls_ok_uri _ _ hy

/-- Claim C4: a non-empty URL whose prefix matches none of the downloadable
protocols leads to no Task.Create request for that URL, and the failure
report states that the URL must start with one of the downloadable
protocols: the single-URL flow notifies exactly that and issues no create
request, `rejectUnknownUrls` rejects the URL with exactly that message, and
the multi-URL flow never places such a URL in a create request's `uri`
list. -/
theorem claim_C4_unknownProtocolRejected :
    (∀ (env : Actions.SingleFlowEnv) (url : String) (path : Option String),
      url ≠ "" →
      startsWithAnyProtocol url ALL_DOWNLOADABLE_PROTOCOLS = false →
      (Actions.addDownloadTaskAndPoll env url path).createRequests = [] ∧
      (Actions.addDownloadTaskAndPoll env url path).terminalNotification =
        some ⟨"Failed to add download",
          some ("URL must start with one of "
            ++ String.intercalate ", " ALL_DOWNLOADABLE_PROTOCOLS),
          some "failure"⟩) ∧
    (∀ u : String, startsWithAnyProtocol u DOWNLOADABLE_PROTOCOLS = false →
      DownloadTasks.rejectUnknownUrls (.ok (.uri u)) =
        .error (.invalidUrl ("URL \x27" ++ u ++ "\x27 must start with one of "
          ++ String.intercalate ", " DOWNLOADABLE_PROTOCOLS))) ∧
    (∀ (env : DownloadTasks.MultiFlowEnv) (urls : List String)
        (path : Option String) (u : String),
      startsWithAnyProtocol u DOWNLOADABLE_PROTOCOLS = false →
      ∀ req ∈ (DownloadTasks.addDownloadTasksAndPoll env urls path).createRequests,
        u ∉ req.uri) := by
  refine ⟨?_, ?_, ?_⟩
  · intro env url path hne hall
    have hauto := not_startsAuto_of_not_startsAll url hall
    simp only [Actions.addDownloadTaskAndPoll]
    rw [if_neg hne]
    rw [if_neg (by rw [hauto]; exact Bool.false_ne_true)]
    rw [if_neg (by rw [hall]; exact Bool.false_ne_true)]
    exact ⟨rfl, rfl⟩
  · intro u hu
    simp [DownloadTasks.rejectUnknownUrls, hu]
  · intro env urls path u hu req hreq hmem
    have := multiFlow_uri_starts env urls path req hreq u hmem
    rw [hu] at this
    exact Bool.false_ne_true this

/-- Witness for C4 at a concrete non-empty URL with an unknown protocol. -/
theorem claim_C4_unknownProtocolRejected_witness :
    (Actions.addDownloadTaskAndPoll
        ⟨Except.error (), Except.error (), Except.error (),
         fun _ => none, fun _ => "e"⟩ "steam://run/123" none).createRequests = [] ∧
    (Actions.addDownloadTaskAndPoll
        ⟨Except.error (), Except.error (), Except.error (),
         fun _ => none, fun _ => "e"⟩ "steam://run/123" none).terminalNotification =
      some ⟨"Failed to add download",
        some ("URL must start with one of "
          ++ String.intercalate ", " ALL_DOWNLOADABLE_PROTOCOLS),
        some "failure"⟩ :=
  claim_C4_unknownProtocolRejected.1
    ⟨Except.error (), Except.error (), Except.error (), fun _ => none, fun _ => "e"⟩
    "steam://run/123" none (by decide) (by decide)

theorem runCreateSingle_spec (env : Actions.SingleFlowEnv)
    (req : Actions.CreateRequestSingle) (filename : Option String) (url : String) :
    ∃ n : DownloadTasks.Notification,
      (Actions.runCreateSingle env req filename url).terminalNotification = some n ∧
      (n.severity = some "success" ↔
        env.createResult = .ok (.response (.success ()))) ∧
      (Actions.runCreateSingle env req filename url).createRequests = [req] := by
  match hc : env.createResult with
  | .error e =>
    refine ⟨Actions.unexpectedErrorNotification,
      by simp only [Actions.runCreateSingle, hc], ?_, by simp only [Actions.runCreateSingle, hc]⟩
    constructor
    · intro h
      have h2 : ("failure" : String) = "success" := Option.some.inj h
      exact absurd h2 (by decide)
    · intro h
      simp at h
  | .ok (.connectionFailure cf) =>
    refine ⟨⟨"Failed to connection to DiskStation", some "Please check your settings.",
      some "failure"⟩,
      by simp only [Actions.runCreateSingle, hc, Actions.notifyTaskAddResult], ?_,
      by simp only [Actions.runCreateSingle, hc]⟩
    constructor
    · intro h
      have h2 : ("failure" : String) = "success" := Option.some.inj h
      exact absurd h2 (by decide)
    · intro h
      simp at h
  | .ok (.response (.success u)) =>
    refine ⟨⟨"Download added", some (Actions.jsOrString filename url), some "success"⟩,
      by simp only [Actions.runCreateSingle, hc, Actions.notifyTaskAddResult], ?_,
      by simp only [Actions.runCreateSingle, hc]⟩
    cases u
    constructor
    · intro _
      rfl
    · intro _
      rfl
  | .ok (.response (.failure code)) =>
    refine ⟨⟨"Failed to add download", some (env.errorMessageFromCode code),
      some "failure"⟩,
      by simp only [Actions.runCreateSingle, hc, Actions.notifyTaskAddResult], ?_,
      by simp only [Actions.runCreateSingle, hc]⟩
    constructor
    · intro h
      have h2 : ("failure" : String) = "success" := Option.some.inj h
      exact absurd h2 (by decide)
    · intro h
      simp at h

theorem singleFlow_shape (env : Actions.SingleFlowEnv) (url : String)
    (path : Option String) :
    (∃ n : DownloadTasks.Notification,
      Actions.addDownloadTaskAndPoll env url path
        = ⟨[], some n, false⟩ ∧ n.severity = some "failure") ∨
    (∃ (req : Actions.CreateRequestSingle) (filename : Option String),
      Actions.addDownloadTaskAndPoll env url path
        = Actions.runCreateSingle env req filename url) := by
  simp only [Actions.addDownloadTaskAndPoll]
  by_cases hurl : url = ""
  · rw [if_pos hurl]
    exact .inl ⟨_, rfl, rfl⟩
  rw [if_neg hurl]
  by_cases hauto : startsWithAnyProtocol url AUTO_DOWNLOAD_TORRENT_FILE_PROTOCOLS = true
  · rw [if_pos hauto]
    cases hh : env.headResult with
    | error e =>
      exact .inl ⟨_, rfl, rfl⟩
    | ok head =>
      dsimp only
      cases hct : head.contentType with
      | none =>
        exact .inl ⟨_, rfl, rfl⟩
      | some ct0 =>
        dsimp only
        cases hfind : METADATA_FILE_TYPES.find? (fun fileType =>
            jsToLower ct0 == fileType.mediaType
              || jsEndsWith (urlWithoutQueryOf url) fileType.extension) with
        | none =>
          exact .inr ⟨_, _, rfl⟩
        | some fileType =>
          cases hcl : head.contentLength with
          | none =>
            exact .inr ⟨_, _, rfl⟩
          | some len =>
            dsimp only
            by_cases hlt : len < ARBITRARY_FILE_FETCH_SIZE_CUTOFF
            · rw [if_pos hlt]
              cases hget : env.getResult with
              | error e =>
                exact .inl ⟨_, rfl, rfl⟩
              | ok getResp =>
                exact .inr ⟨_, _, rfl⟩
            · rw [if_neg hlt]
              exact .inr ⟨_, _, rfl⟩
  · rw [if_neg hauto]
    by_cases hall : startsWithAnyProtocol url ALL_DOWNLOADABLE_PROTOCOLS = true
    · rw [if_pos hall]
      exact .inr ⟨_, _, rfl⟩
    · rw [if_neg hall]
      exact .inl ⟨_, rfl, rfl⟩

/-- Counterexample for C7: submitting the single invalid URL `foo` to the
multi-URL flow rejects every URL, and the flow then completes without
issuing any terminal notification (and without any create request),
contradicting the claim that a failure notification is issued when every
URL is rejected as invalid. -/
theorem claim_C7_counterexample_silentOnAllRejected :
    (DownloadTasks.addDownloadTasksAndPoll
        ⟨⟨fun _ => Except.error (), fun _ => Except.error ()⟩,
         Except.ok (.response (.success ()))⟩
        ["foo"] none).terminalNotification = none ∧
    (DownloadTasks.addDownloadTasksAndPoll
        ⟨⟨fun _ => Except.error (), fun _ => Except.error ()⟩,
         Except.ok (.response (.success ()))⟩
        ["foo"] none).createRequests = [] := ⟨rfl, rfl⟩

/-- Claim C7 as amended: the single-URL flow issues a terminal notification on every
invocation, with success severity exactly when a create request was issued
and the create response succeeded; the multi-URL flow issues a terminal
notification only when the URL list is empty or the create call rejects
unexpectedly — in particular, it completes silently when every URL is
rejected as invalid and also after a completed create response. -/
theorem claim_C7_amended_terminalNotifications :
    (∀ (env : Actions.SingleFlowEnv) (url : String) (path : Option String),
      ∃ n : DownloadTasks.Notification,
        (Actions.addDownloadTaskAndPoll env url path).terminalNotification = some n ∧
        (n.severity = some "success" ↔
          (env.createResult = .ok (.response (.success ())) ∧
            (Actions.addDownloadTaskAndPoll env url path).createRequests ≠ []))) ∧
    (∀ (env : DownloadTasks.MultiFlowEnv) (urls : List String) (path : Option String),
      ((DownloadTasks.addDownloadTasksAndPoll env urls path).terminalNotification).isSome
          = true ↔
        (urls.length = 0 ∨
          ((DownloadTasks.partitionPromises ((urls.map (fun u =>
                DownloadTasks.rejectUnknownUrls
                  (DownloadTasks.maybeMapUrlToFile env.http u))).map
                DownloadTasks.toPromiseOutcome)).resolved.length ≠ 0 ∧
            ∃ e : Unit, env.createResult = .error e))) := by
  constructor
  · intro env url path
    rcases singleFlow_shape env url path with ⟨n, heq, hsev⟩ | ⟨req, filename, heq⟩
    · refine ⟨n, by rw [heq], ?_⟩
      rw [heq, hsev]
      constructor
      · intro h
        exact absurd h (by decide)
      · rintro ⟨-, h⟩
        exact absurd rfl h
    · obtain ⟨n, hterm, hiff, hreqs⟩ := runCreateSingle_spec env req filename url
      refine ⟨n, by rw [heq]; exact hterm, ?_⟩
      constructor
      · intro hs
        refine ⟨hiff.mp hs, ?_⟩
        rw [heq, hreqs]
        exact List.cons_ne_nil req []
      · rintro ⟨hok, -⟩
        exact hiff.mpr hok
  · intro env urls path
    simp only [DownloadTasks.addDownloadTasksAndPoll]
    by_cases hlen : urls.length > 0
    · rw [if_pos hlen]
      by_cases hres : (DownloadTasks.partitionPromises ((urls.map (fun u =>
            DownloadTasks.rejectUnknownUrls
              (DownloadTasks.maybeMapUrlToFile env.http u))).map
            DownloadTasks.toPromiseOutcome)).resolved.length = 0
      · rw [if_pos hres]
        constructor
        · intro h
          simp at h
        · rintro (h0 | ⟨hne, -⟩)
          · omega
          · exact absurd hres hne
      · rw [if_neg hres]
        cases hc : env.createResult with
        | error e =>
          constructor
          · intro _
            exact .inr ⟨hres, e, rfl⟩
          · intro _
            rfl
        | ok result =>
          constructor
          · intro h
            simp at h
          · rintro (h0 | ⟨-, e, he⟩)
            · omega
            · simp at he
    · rw [if_neg hlen]
      constructor
      · intro _
        exact .inl (by omega)
      · intro _
        rfl

/-- Witness for C3 at a concrete settings change that touches non-interval
fields. -/
theorem claim_C3_updateSettings_witness :
    ((Poller.updateSettings ⟨0, ⟨false, "", none, 60⟩⟩
        ⟨some true, some "h", some (some "s"), none⟩).fst).settings
      = Poller.mergeSettings ⟨false, "", none, 60⟩
          ⟨some true, some "h", some (some "s"), none⟩ ∧
    (Poller.updateSettings ⟨0, ⟨false, "", none, 60⟩⟩
        ⟨some true, some "h", some (some "s"), none⟩).snd = true := by
  have h := claim_C3_updateSettings ⟨0, ⟨false, "", none, 60⟩⟩
    ⟨some true, some "h", some (some "s"), none⟩
  exact ⟨h.1, h.2.mpr (by decide)⟩

/-- Witness for C9 at a concrete URL, a missing content-disposition header
and the torrent file type. -/
theorem claim_C9_guessFileName_witness :
    guessTorrentFileName "http://a/b" none ⟨"application/x-bittorrent", ".torrent"⟩
        ≠ "" ∧
    jsEndsWith (guessTorrentFileName "http://a/b" none
        ⟨"application/x-bittorrent", ".torrent"⟩) ".torrent" = true :=
  claim_C9_guessFileName "http://a/b" none ⟨"application/x-bittorrent", ".torrent"⟩

/-- Witness for C10 at a concrete promise list mixing a resolution, a
non-`Error` rejection and an `Error` rejection. -/
theorem claim_C10_partitionPromises_witness :
    DownloadTasks.partitionPromises
        [DownloadTasks.PromiseOutcome.resolved 1,
         DownloadTasks.PromiseOutcome.rejected false "x",
         DownloadTasks.PromiseOutcome.rejected true "y"]
      = ⟨[1], ["", "y"]⟩ :=
  (claim_C10_partitionPromises Nat
    [DownloadTasks.PromiseOutcome.resolved 1,
     DownloadTasks.PromiseOutcome.rejected false "x",
     DownloadTasks.PromiseOutcome.rejected true "y"]).1

/-- Witness for the amended C7 at the counterexample input: the multi-URL
flow stays silent when its only URL is rejected. -/
theorem claim_C7_amended_terminalNotifications_witness :
    ((DownloadTasks.addDownloadTasksAndPoll
        ⟨⟨fun _ => Except.error (), fun _ => Except.error ()⟩,
         Except.ok (.response (.success ()))⟩
        ["foo"] none).terminalNotification).isSome = false := by
  have h := claim_C7_amended_terminalNotifications.2
    ⟨⟨fun _ => Except.error (), fun _ => Except.error ()⟩,
     Except.ok (.response (.success ()))⟩ ["foo"] none
  by_cases hb : ((DownloadTasks.addDownloadTasksAndPoll
      ⟨⟨fun _ => Except.error (), fun _ => Except.error ()⟩,
       Except.ok (.response (.success ()))⟩
      ["foo"] none).terminalNotification).isSome = true
  · rcases h.mp hb with h0 | ⟨hne, e, he⟩
    · exact absurd h0 (by decide)
    · exact absurd (by decide) hne
  · simpa using hb

end SDM
